import Mathlib

/-!
Shallow embedding of the backend of the TaskManagementTool repository
(`src/backend/server.js`): a Kanban task manager exposing a REST API over
MongoDB collections (`users`, `projects`, `tasks`, `activities`) plus a
WebSocket fan-out.  Each Express route handler is embedded as a pure Lean
function over an explicit application state; the MongoDB driver calls
(`findOne`, `find`, `insertOne`, `updateOne`, `deleteOne`) become list
operations over that state.  Effectful inputs produced inside a handler
(`crypto.randomUUID()`, `new Date().toISOString()`, `bcrypt.hash`,
`jwt.sign`) are passed in as parameters.
-/

namespace TaskTool

/-- A `users` collection document (server.js lines 76–82). -/
structure User where
  id : String
  email : String
  name : String
  password : String
  created_at : String
deriving DecidableEq, Repr

/-- A `projects` collection document (server.js lines 236–242). -/
structure Project where
  id : String
  name : String
  description : String
  members : List String
  created_at : String
deriving DecidableEq, Repr

/-- A `tasks` collection document (server.js lines 288–296). -/
structure Task where
  id : String
  project_id : String
  title : String
  description : String
  status : String
  created_at : String
  updated_at : String
deriving DecidableEq, Repr

/-- An `activities` collection document (read at server.js lines 399–404;
never written anywhere in the backend). -/
structure Activity where
  id : String
  project_id : String
  user_id : String
  action : String
  details : String
  created_at : String
deriving DecidableEq, Repr

/-- The four MongoDB collections of the backend (server.js lines 38–45). -/
structure AppState where
  users : List User
  projects : List Project
  tasks : List Task
  activities : List Activity
deriving DecidableEq, Repr

/-- An error response `res.status(code).json({detail})`. -/
structure HttpError where
  status : Nat
  detail : String
deriving DecidableEq, Repr

/-- JavaScript truthiness of an optional string request field:
`undefined` and `""` are falsy. -/
def jsTruthy : Option String → Bool
  | none => false
  | some s => s ≠ ""

/-- JavaScript `v || d` for an optional string field `v`:
yields `d` when `v` is `undefined` or `""`. -/
def jsOr (v : Option String) (d : String) : String :=
  match v with
  | some s => if s = "" then d else s
  | none => d

/-- HTTP methods used by the route table. -/
inductive Method where
  | GET | POST | PUT | DELETE
deriving DecidableEq, Repr

/-- The complete route table of the Express app: every `app.get/post/put/delete`
registration in `src/backend/server.js`, in source order (lines 67, 70, 104,
133, 199, 214, 232, 257, 278, 309, 354, 387). -/
def routes : List (Method × String) :=
  [ (.GET, "/api/health"),
    (.POST, "/api/auth/signup"),
    (.POST, "/api/auth/login"),
    (.GET, "/api/auth/me"),
    (.GET, "/api/projects"),
    (.GET, "/api/projects/:id"),
    (.POST, "/api/projects"),
    (.GET, "/api/projects/:projectId/tasks"),
    (.POST, "/api/projects/:projectId/tasks"),
    (.PUT, "/api/projects/:projectId/tasks/:taskId"),
    (.DELETE, "/api/projects/:projectId/tasks/:taskId"),
    (.GET, "/api/projects/:projectId/activities") ]

/-- The `userOut` object literal of signup/login (server.js lines 85–90 and
116–121), as an ordered field list of the JSON user object. -/
def userOut (u : User) : List (String × String) :=
  [("id", u.id), ("email", u.email), ("name", u.name), ("created_at", u.created_at)]

/-- A stored user document as an ordered field list (for modelling a MongoDB
projection over it). -/
def userDocFields (u : User) : List (String × String) :=
  [ ("id", u.id), ("email", u.email), ("name", u.name),
    ("password", u.password), ("created_at", u.created_at) ]

/-- A MongoDB exclusion projection `{f: 0, ...}`: drops the named fields. -/
def projectionExclude (excl : List String) (fields : List (String × String)) :
    List (String × String) :=
  fields.filter (fun kv => !(excl.contains kv.1))

/-- The JSON body of a successful signup/login response
(server.js lines 91–95 and 122–126). -/
structure AuthResponse where
  access_token : String
  token_type : String
  user : List (String × String)
deriving DecidableEq, Repr

/-- Request body of `POST /api/auth/signup`. -/
structure SignupBody where
  email : Option String
  name : Option String
  password : Option String
deriving DecidableEq, Repr

/-- `POST /api/auth/signup` (server.js lines 70–102).  `token` stands for
`jwt.sign({sub: user.id}, ...)`, `hashed` for `bcrypt.hash(password, 10)`,
`newId` for `crypto.randomUUID()` and `now` for `new Date().toISOString()`.
The `users` collection has a unique index on `email` (line 38), so
`insertOne` of a duplicate email raises error code 11000, which the catch
block translates to `400 "Email already registered"` (lines 98–99). -/
def signup (s : AppState) (body : SignupBody) (token hashed newId now : String) :
    Except HttpError AuthResponse × AppState :=
  if !(jsTruthy body.email) || !(jsTruthy body.name) || !(jsTruthy body.password) then
    (.error ⟨400, "Missing fields"⟩, s)
  else
    let user : User :=
      { id := newId, email := body.email.getD "", name := body.name.getD "",
        password := hashed, created_at := now }
    if s.users.any (fun u => u.email == user.email) then
      (.error ⟨400, "Email already registered"⟩, s)
    else
      (.ok { access_token := token, token_type := "bearer", user := userOut user },
       { s with users := s.users ++ [user] })

/-- Request body of `POST /api/auth/login`. -/
structure LoginBody where
  email : Option String
  password : Option String
deriving DecidableEq, Repr

/-- `POST /api/auth/login` (server.js lines 104–131).  `pwMatch plain hash`
stands for `bcrypt.compare(plain, hash)`; `token` for the signed JWT.
Reads only; never changes the state. -/
def login (s : AppState) (body : LoginBody) (token : String)
    (pwMatch : String → String → Bool) : Except HttpError AuthResponse :=
  if !(jsTruthy body.email) || !(jsTruthy body.password) then
    .error ⟨400, "Missing fields"⟩
  else
    match s.users.find? (fun u => u.email == body.email.getD "") with
    | none => .error ⟨401, "Invalid email or password"⟩
    | some u =>
      if !(pwMatch (body.password.getD "") u.password) then
        .error ⟨401, "Invalid email or password"⟩
      else
        .ok { access_token := token, token_type := "bearer", user := userOut u }

/-- `GET /api/auth/me` (server.js lines 133–144): `findOne({id}, {projection:
{_id: 0, password: 0}})`, 404 when no user matches. -/
def authMe (s : AppState) (userId : String) : Except HttpError (List (String × String)) :=
  match s.users.find? (fun u => u.id == userId) with
  | none => .error ⟨404, "User not found"⟩
  | some u => .ok (projectionExclude ["_id", "password"] (userDocFields u))

/-- `findOne({id: pid, members: uid})` on the `projects` collection: the
membership-scoped project lookup shared by every per-project route
(server.js lines 216–222, 259–262, 280–283, 314–317, 359–362, 392–395). -/
def findProject (s : AppState) (pid uid : String) : Option Project :=
  s.projects.find? (fun p => p.id == pid && p.members.contains uid)

/-- `GET /api/projects` (server.js lines 199–211): all projects whose
`members` array contains the authenticated user. -/
def listProjects (s : AppState) (uid : String) : List Project :=
  s.projects.filter (fun p => p.members.contains uid)

/-- `GET /api/projects/:id` (server.js lines 214–229). -/
def getProject (s : AppState) (uid pid : String) : Except HttpError Project :=
  match findProject s pid uid with
  | none => .error ⟨404, "Project not found"⟩
  | some p => .ok p

/-- Request body of `POST /api/projects`. -/
structure ProjectBody where
  name : Option String
  description : Option String
deriving DecidableEq, Repr

/-- `POST /api/projects` (server.js lines 232–253): creates a project whose
sole initial member is the caller; the subsequent `broadcastToProject` is a
fire-and-forget side effect that does not touch the collections. -/
def createProject (s : AppState) (uid : String) (body : ProjectBody)
    (newId now : String) : Except HttpError Project × AppState :=
  if !(jsTruthy body.name) then
    (.error ⟨400, "Missing name"⟩, s)
  else
    let project : Project :=
      { id := newId, name := body.name.getD "", description := jsOr body.description "",
        members := [uid], created_at := now }
    (.ok project, { s with projects := s.projects ++ [project] })

/-- `GET /api/projects/:projectId/tasks` (server.js lines 257–275). -/
def listTasks (s : AppState) (uid pid : String) : Except HttpError (List Task) :=
  match findProject s pid uid with
  | none => .error ⟨404, "Project not found"⟩
  | some _ => .ok (s.tasks.filter (fun t => t.project_id == pid))

/-- Request body of the task create and update routes. -/
structure TaskBody where
  title : Option String
  description : Option String
  status : Option String
deriving DecidableEq, Repr

/-- `POST /api/projects/:projectId/tasks` (server.js lines 278–306).
`status: status || "todo"` (line 293): a missing or empty status defaults to
`"todo"`; any other string is stored verbatim, with no validation. -/
def createTask (s : AppState) (uid pid : String) (body : TaskBody)
    (newId now : String) : Except HttpError Task × AppState :=
  match findProject s pid uid with
  | none => (.error ⟨404, "Project not found"⟩, s)
  | some _ =>
    if !(jsTruthy body.title) then
      (.error ⟨400, "Missing title"⟩, s)
    else
      let task : Task :=
        { id := newId, project_id := pid, title := body.title.getD "",
          description := jsOr body.description "", status := jsOr body.status "todo",
          created_at := now, updated_at := now }
      (.ok task, { s with tasks := s.tasks ++ [task] })

/-- The `$set` document of the task update (server.js lines 321–327):
`updated_at` always, and each of `status`, `title`, `description` only when
present in the request body (`!== undefined`; note an empty string counts as
present here, unlike the `||` defaults of the create route). -/
def applyTaskUpdate (t : Task) (body : TaskBody) (now : String) : Task :=
  { t with
    updated_at := now,
    status := body.status.getD t.status,
    title := body.title.getD t.title,
    description := body.description.getD t.description }

/-- `PUT /api/projects/:projectId/tasks/:taskId` (server.js lines 309–351):
membership check, `updateOne({id, project_id}, {$set: updateData})`
(404 when `matchedCount` is 0), then re-read via `findOne({id: taskId})`
and respond with the re-read document (possibly `null`, hence `Option`).
`updateOne` modifies at most one document; the unique index on `tasks.id`
(line 42) means the `{id, project_id}` filter matches at most one anyway,
so updating every match is equivalent. -/
def updateTask (s : AppState) (uid pid tid : String) (body : TaskBody)
    (now : String) : Except HttpError (Option Task) × AppState :=
  match findProject s pid uid with
  | none => (.error ⟨404, "Project not found"⟩, s)
  | some _ =>
    if s.tasks.any (fun t => t.id == tid && t.project_id == pid) then
      let tasks' := s.tasks.map (fun t =>
        if t.id == tid && t.project_id == pid then applyTaskUpdate t body now else t)
      (.ok (tasks'.find? (fun t => t.id == tid)), { s with tasks := tasks' })
    else
      (.error ⟨404, "Task not found"⟩, s)

/-- `DELETE /api/projects/:projectId/tasks/:taskId` (server.js lines
354–383): `deleteOne({id, project_id})` removes the first matching document;
404 when `deletedCount` is 0, else 204 with no body. -/
def deleteTask (s : AppState) (uid pid tid : String) :
    Except HttpError Unit × AppState :=
  match findProject s pid uid with
  | none => (.error ⟨404, "Project not found"⟩, s)
  | some _ =>
    if s.tasks.any (fun t => t.id == tid && t.project_id == pid) then
      (.ok (), { s with tasks := s.tasks.eraseP (fun t => t.id == tid && t.project_id == pid) })
    else
      (.error ⟨404, "Task not found"⟩, s)

/-- Insert an activity into a list sorted by `created_at` descending
(string comparison), modelling the `sort({created_at: -1})` cursor. -/
def insertByCreatedDesc (a : Activity) : List Activity → List Activity
  | [] => [a]
  | b :: rest =>
    if b.created_at ≤ a.created_at then a :: b :: rest
    else b :: insertByCreatedDesc a rest

/-- Sort activities by `created_at` descending. -/
def sortByCreatedDesc (l : List Activity) : List Activity :=
  l.foldr insertByCreatedDesc []

/-- `GET /api/projects/:projectId/activities` (server.js lines 387–411):
membership check, then the project's activities in reverse-chronological
order.  This is the only route that touches the `activities` collection. -/
def listActivities (s : AppState) (uid pid : String) :
    Except HttpError (List Activity) :=
  match findProject s pid uid with
  | none => .error ⟨404, "Project not found"⟩
  | some _ => .ok (sortByCreatedDesc (s.activities.filter (fun a => a.project_id == pid)))

/-- The in-memory connection registry `connections : Map userId -> [ws]`
(server.js line 150); socket handles are modelled as natural numbers. -/
abbrev Conns := List (String × List Nat)

/-- `connections.get(userId) || []` (server.js lines 170 and 185). -/
def lookupConns (conns : Conns) (uid : String) : List Nat :=
  match conns.find? (fun e => e.1 == uid) with
  | none => []
  | some e => e.2

/-- The `wss.on("connection")` handler (server.js lines 166–168): create the
user's entry if absent, then push the new socket handle. -/
def registerConnection (conns : Conns) (uid : String) (ws : Nat) : Conns :=
  if conns.any (fun e => e.1 == uid) then
    conns.map (fun e => if e.1 == uid then (e.1, e.2 ++ [ws]) else e)
  else
    conns ++ [(uid, [ws])]

/-- The upgrade-path regex `^\/api\/ws\/(.+)$` (server.js line 155): the
captured user id is everything after `/api/ws/`, which must be non-empty and
(since `.` does not match a newline) newline-free.  No token or credential
takes part. -/
def parseWsPath (path : String) : Option String :=
  let cs := path.toList
  if cs.take 8 == "/api/ws/".toList && cs.length > 8
      && (cs.drop 8).all (fun c => c != '\n') then
    some (String.mk (cs.drop 8))
  else
    none

/-- `server.on("upgrade")` (server.js lines 152–164): destroy the socket
(`none`) unless the path matches, else register the socket under the user id
taken from the path. -/
def handleUpgrade (conns : Conns) (path : String) (ws : Nat) : Option Conns :=
  match parseWsPath path with
  | none => none
  | some uid => some (registerConnection conns uid ws)

/-- `broadcastToProject(projectId, message)` (server.js lines 179–195):
`findOne({id: projectId})` — deliver to no one when the project does not
exist — then for each member, for each registered handle, attempt
`ws.send(...)` inside `try {} catch (e) {}`.  `sendOk ws` says whether the
send on handle `ws` succeeds; the empty catch swallows a failure, so every
handle is attempted regardless.  The result is the list of (handle, outcome)
delivery attempts in order. -/
def broadcastToProject (s : AppState) (conns : Conns) (sendOk : Nat → Bool)
    (pid : String) : List (Nat × Bool) :=
  match s.projects.find? (fun p => p.id == pid) with
  | none => []
  | some project =>
    (project.members.flatMap (fun uid => lookupConns conns uid)).map
      (fun ws => (ws, sendOk ws))

/-- A sample project whose sole member is user `u1`. -/
def sampleProject1 : Project :=
  { id := "p1", name := "P1", description := "", members := ["u1"], created_at := "2024-01-01" }

/-- A sample store holding `sampleProject1` and nothing else. -/
def sampleState : AppState :=
  { users := [], projects := [sampleProject1], tasks := [], activities := [] }

/-- A sample user record for concrete auth instantiations. -/
def sampleUser : User :=
  { id := "u1", email := "a@x.com", name := "Alice", password := "hash1", created_at := "2024-01-01" }

/-- A sample store holding `sampleUser` and nothing else. -/
def sampleAuthState : AppState :=
  { users := [sampleUser], projects := [], tasks := [], activities := [] }

/-- A sample stored task under `sampleProject1`. -/
def sampleTask1 : Task :=
  { id := "t1", project_id := "p1", title := "T1", description := "D1",
    status := "todo", created_at := "2024-01-01", updated_at := "2024-01-01" }

/-- A sample store holding `sampleProject1` and `sampleTask1`. -/
def sampleTaskState : AppState :=
  { users := [], projects := [sampleProject1], tasks := [sampleTask1], activities := [] }

/-- The document `sampleTask1` becomes under a status-only update applied at
time `now2`. -/
def sampleTask1Updated : Task :=
  { id := "t1", project_id := "p1", title := "T1", description := "D1",
    status := "done", created_at := "2024-01-01", updated_at := "now2" }

/-- A sample connection registry: user `u1` has one live socket, handle 5. -/
def sampleConns : Conns := [("u1", [5])]

/-- An empty store. -/
def emptyState : AppState :=
  { users := [], projects := [], tasks := [], activities := [] }

/-- C1: the claim is false: the Express app registers no project-delete
route — neither `DELETE /api/projects/:id` (the `/api`-prefixed form every
registered route uses) nor a bare `DELETE /projects/:id` appears in the
route table, so there is no project-delete operation to which the cascade
property could apply. -/
theorem C1_no_project_delete_route :
    ¬ ((Method.DELETE, "/api/projects/:id") ∈ routes ∨
       (Method.DELETE, "/projects/:id") ∈ routes) := by
  decide

/-- C1 (amended): the API exposes no project-delete operation: the only
DELETE route is the per-task delete, and no state-changing handler ever
removes a project from the store (every project present before a handler
runs is present after), so no project deletion — and hence no cascade —
ever happens. -/
theorem C1_no_project_deletion :
    (∀ r ∈ routes, r.1 = Method.DELETE → r.2 = "/api/projects/:projectId/tasks/:taskId")
    ∧ (∀ s body tok hsh nid now q, q ∈ s.projects →
        q ∈ (signup s body tok hsh nid now).2.projects)
    ∧ (∀ s uid body nid now q, q ∈ s.projects →
        q ∈ (createProject s uid body nid now).2.projects)
    ∧ (∀ s uid pid body nid now q, q ∈ s.projects →
        q ∈ (createTask s uid pid body nid now).2.projects)
    ∧ (∀ s uid pid tid body now q, q ∈ s.projects →
        q ∈ (updateTask s uid pid tid body now).2.projects)
    ∧ (∀ s uid pid tid q, q ∈ s.projects →
        q ∈ (deleteTask s uid pid tid).2.projects) := by
  refine ⟨by decide, ?_, ?_, ?_, ?_, ?_⟩
  · intro s body tok hsh nid now q hq
    unfold signup
    split
    · exact hq
    · dsimp only
      split
      · exact hq
      · exact hq
  · intro s uid body nid now q hq
    unfold createProject
    split
    · exact hq
    · dsimp only
      exact List.mem_append_left _ hq
  · intro s uid pid body nid now q hq
    unfold createTask
    split
    · exact hq
    · dsimp only
      split
      · exact hq
      · exact hq
  · intro s uid pid tid body now q hq
    unfold updateTask
    split
    · exact hq
    · split
      · exact hq
      · exact hq
  · intro s uid pid tid q hq
    unfold deleteTask
    split
    · exact hq
    · split
      · exact hq
      · exact hq

/-- C1 witness: the task-delete route is indeed the one DELETE route, and a
concrete `deleteTask` call leaves the sample project in the store. -/
theorem C1_no_project_deletion_witness :
    (Method.DELETE, "/api/projects/:projectId/tasks/:taskId").2 =
      "/api/projects/:projectId/tasks/:taskId"
    ∧ sampleProject1 ∈ (deleteTask sampleState "u1" "p1" "t9").2.projects :=
  ⟨C1_no_project_deletion.1 (Method.DELETE, "/api/projects/:projectId/tasks/:taskId")
      (by decide) rfl,
   C1_no_project_deletion.2.2.2.2.2 sampleState "u1" "p1" "t9" sampleProject1 (by decide)⟩

/-- The `$set` document never contains `id`. -/
theorem applyTaskUpdate_id (t : Task) (body : TaskBody) (now : String) :
    (applyTaskUpdate t body now).id = t.id := rfl

/-- The `$set` document never contains `project_id`. -/
theorem applyTaskUpdate_project_id (t : Task) (body : TaskBody) (now : String) :
    (applyTaskUpdate t body now).project_id = t.project_id := rfl

/-- When task ids are pairwise distinct (the unique index on `tasks.id`,
server.js line 42), the post-update re-read `findOne({id: taskId})` returns
exactly the updated document. -/
theorem find?_map_update (l : List Task) (tid pid : String) (body : TaskBody)
    (now : String) (hnd : (l.map Task.id).Nodup) (t : Task) (ht : t ∈ l)
    (hid : t.id = tid) (hpid : t.project_id = pid) :
    (l.map (fun x => if x.id == tid && x.project_id == pid
        then applyTaskUpdate x body now else x)).find? (fun x => x.id == tid) =
      some (applyTaskUpdate t body now) := by
  induction l with
  | nil => cases ht
  | cons a l ih =>
    rw [List.map_cons] at hnd
    rcases List.nodup_cons.1 hnd with ⟨ha, hnd'⟩
    rw [List.map_cons]
    rcases List.mem_cons.1 ht with rfl | htl
    · have hcond : (t.id == tid && t.project_id == pid) = true := by
        simp [hid, hpid]
      rw [hcond]
      simp only [if_true]
      exact List.find?_cons_of_pos _ (by simp [applyTaskUpdate, hid])
    · have haid : a.id ≠ tid := by
        intro hc
        exact ha (hc ▸ hid ▸ List.mem_map_of_mem Task.id htl)
      have hcond : (a.id == tid && a.project_id == pid) = false := by
        simp [haid]
      rw [hcond, if_neg Bool.false_ne_true]
      rw [List.find?_cons_of_neg _ (by simp [haid])]
      exact ih hnd' htl

/-- When the task update succeeds and returns a document, that document is
the matched stored task (unique by id) transformed by the `$set` update. -/
theorem updateTask_ok_spec (s : AppState) (uid pid tid : String) (body : TaskBody)
    (now : String) (t' : Task) (s2 : AppState)
    (hnd : (s.tasks.map Task.id).Nodup)
    (h : updateTask s uid pid tid body now = (.ok (some t'), s2)) :
    ∃ t ∈ s.tasks, t.id = tid ∧ t.project_id = pid ∧
      t' = applyTaskUpdate t body now := by
  unfold updateTask at h
  cases hfp : findProject s pid uid with
  | none => rw [hfp] at h; simp at h
  | some p =>
    rw [hfp] at h
    dsimp only at h
    by_cases hany : (s.tasks.any fun t => t.id == tid && t.project_id == pid) = true
    · rw [if_pos hany] at h
      obtain ⟨t, htl, hcond⟩ := List.any_eq_true.1 hany
      rw [Bool.and_eq_true] at hcond
      have hid' : t.id = tid := beq_iff_eq.1 hcond.1
      have hpid' : t.project_id = pid := beq_iff_eq.1 hcond.2
      have hfind := find?_map_update s.tasks tid pid body now hnd t htl hid' hpid'
      rw [hfind] at h
      simp only [Prod.mk.injEq, Except.ok.injEq, Option.some.injEq] at h
      exact ⟨t, htl, hid', hpid', h.1.symm⟩
    · rw [if_neg hany] at h
      simp at h

/-- C2: the claim is false: creating a task with status `"bogus"` stores
status `"bogus"`, which is outside {not-started, in-progress, done}; the
backend performs no coercion at write time. -/
theorem C2_bogus_status_stored :
    (createTask sampleState "u1" "p1" ⟨some "T", none, some "bogus"⟩ "t1" "now").1 =
      Except.ok { id := "t1", project_id := "p1", title := "T", description := "",
                  status := "bogus", created_at := "now", updated_at := "now" }
    ∧ "bogus" ∉ (["not-started", "in-progress", "done"] : List String) :=
  ⟨rfl, by decide⟩

/-- C2 (amended): the stored status is taken verbatim from the request with
no validation against any enumeration: on create it is `status || "todo"`
(so a missing or empty status becomes `"todo"`, itself outside the spec's
enumeration, and any other string — e.g. `"bogus"` — is stored as is); on
update a present status is stored verbatim. -/
theorem C2_status_unvalidated :
    (∀ s uid pid body nid now t s2,
      createTask s uid pid body nid now = (.ok t, s2) →
      t.status = jsOr body.status "todo")
    ∧ (∀ s uid pid tid body now t' s2 st, (s.tasks.map Task.id).Nodup →
      updateTask s uid pid tid body now = (.ok (some t'), s2) →
      body.status = some st → t'.status = st) := by
  constructor
  · intro s uid pid body nid now t s2 h
    unfold createTask at h
    cases hfp : findProject s pid uid with
    | none => rw [hfp] at h; simp at h
    | some p =>
      rw [hfp] at h
      dsimp only at h
      split at h
      · simp at h
      · simp only [Prod.mk.injEq, Except.ok.injEq] at h
        rw [← h.1]
  · intro s uid pid tid body now t' s2 st hnd h hst
    obtain ⟨t, _, _, _, rfl⟩ := updateTask_ok_spec s uid pid tid body now t' s2 hnd h
    simp [applyTaskUpdate, hst]

/-- C2 witness: applying the amended theorem at the `"bogus"` creation. -/
theorem C2_status_unvalidated_witness :
    ({ id := "t1", project_id := "p1", title := "T", description := "",
       status := "bogus", created_at := "now", updated_at := "now" } : Task).status =
      jsOr (some "bogus") "todo" :=
  C2_status_unvalidated.1 sampleState "u1" "p1" ⟨some "T", none, some "bogus"⟩
    "t1" "now"
    { id := "t1", project_id := "p1", title := "T", description := "",
      status := "bogus", created_at := "now", updated_at := "now" }
    { users := [], projects := [sampleProject1],
      tasks := [{ id := "t1", project_id := "p1", title := "T", description := "",
                  status := "bogus", created_at := "now", updated_at := "now" }],
      activities := [] }
    rfl

/-- C3: the claim is false: a task created with no status field is stored
and returned with status `"todo"`, not `"not-started"`, and the subsequent
GET of the project's tasks returns it with status `"todo"`. -/
theorem C3_default_status_cex :
    (createTask sampleState "u1" "p1" ⟨some "T1", none, none⟩ "t1" "now").1 =
      Except.ok { id := "t1", project_id := "p1", title := "T1", description := "",
                  status := "todo", created_at := "now", updated_at := "now" }
    ∧ listTasks (createTask sampleState "u1" "p1" ⟨some "T1", none, none⟩ "t1" "now").2
        "u1" "p1" =
      Except.ok [{ id := "t1", project_id := "p1", title := "T1", description := "",
                   status := "todo", created_at := "now", updated_at := "now" }]
    ∧ "todo" ≠ "not-started" :=
  ⟨rfl, rfl, by decide⟩

/-- C3 (amended): a task created with no status field is stored with the
default status `"todo"`, and a subsequent GET of the project's tasks
returns that task with status `"todo"`. -/
theorem C3_default_status_todo :
    ∀ s uid pid body nid now t s2, body.status = none →
      createTask s uid pid body nid now = (.ok t, s2) →
      t.status = "todo" ∧ ∃ l, listTasks s2 uid pid = Except.ok l ∧ t ∈ l := by
  intro s uid pid body nid now t s2 hst h
  unfold createTask at h
  cases hfp : findProject s pid uid with
  | none => rw [hfp] at h; simp at h
  | some p =>
    rw [hfp] at h
    dsimp only at h
    split at h
    · simp at h
    · simp only [Prod.mk.injEq, Except.ok.injEq] at h
      obtain ⟨ht, hs2⟩ := h
      have hstat : t.status = "todo" := by rw [← ht]; simp [hst, jsOr]
      refine ⟨hstat, s2.tasks.filter (fun x => x.project_id == pid), ?_, ?_⟩
      · have hfp2 : findProject s2 pid uid = some p := by rw [← hs2]; exact hfp
        unfold listTasks
        rw [hfp2]
      · rw [List.mem_filter]
        constructor
        · rw [← hs2]
          exact List.mem_append_right _ (by rw [← ht]; exact List.mem_singleton.2 rfl)
        · rw [← ht]
          simp

/-- C3 witness: applying the amended theorem at the concrete creation with
no status in the body. -/
theorem C3_default_status_todo_witness :
    ({ id := "t1", project_id := "p1", title := "T1", description := "",
       status := "todo", created_at := "now", updated_at := "now" } : Task).status = "todo"
    ∧ ∃ l, listTasks
        ({ users := [], projects := [sampleProject1],
           tasks := [{ id := "t1", project_id := "p1", title := "T1", description := "",
                       status := "todo", created_at := "now", updated_at := "now" }],
           activities := [] }) "u1" "p1" = Except.ok l
        ∧ ({ id := "t1", project_id := "p1", title := "T1", description := "",
             status := "todo", created_at := "now", updated_at := "now" } : Task) ∈ l :=
  C3_default_status_todo sampleState "u1" "p1" ⟨some "T1", none, none⟩ "t1" "now"
    { id := "t1", project_id := "p1", title := "T1", description := "",
      status := "todo", created_at := "now", updated_at := "now" }
    { users := [], projects := [sampleProject1],
      tasks := [{ id := "t1", project_id := "p1", title := "T1", description := "",
                  status := "todo", created_at := "now", updated_at := "now" }],
      activities := [] }
    rfl rfl

/-- C4: the claim is false: a successful task creation — a project/task
mutation — leaves the activities store empty: no activity record is
appended by any mutating route. -/
theorem C4_mutation_without_activity :
    (createTask sampleState "u1" "p1" ⟨some "T2", none, none⟩ "t2" "now").1 =
      Except.ok { id := "t2", project_id := "p1", title := "T2", description := "",
                  status := "todo", created_at := "now", updated_at := "now" }
    ∧ (createTask sampleState "u1" "p1" ⟨some "T2", none, none⟩ "t2" "now").2.activities
        = [] :=
  ⟨rfl, rfl⟩

/-- C4 (amended): no route of the backend ever writes an activity record:
every handler leaves the `activities` collection exactly as it was, so
activity records never come into existence through the API at all (the
collection is only ever read, by the activities listing route). -/
theorem C4_no_activity_writes :
    (∀ s body tok hsh nid now, (signup s body tok hsh nid now).2.activities = s.activities)
    ∧ (∀ s uid body nid now, (createProject s uid body nid now).2.activities = s.activities)
    ∧ (∀ s uid pid body nid now, (createTask s uid pid body nid now).2.activities = s.activities)
    ∧ (∀ s uid pid tid body now, (updateTask s uid pid tid body now).2.activities = s.activities)
    ∧ (∀ s uid pid tid, (deleteTask s uid pid tid).2.activities = s.activities) := by
  refine ⟨?_, ?_, ?_, ?_, ?_⟩
  · intro s body tok hsh nid now
    unfold signup
    split
    · rfl
    · dsimp only
      split <;> rfl
  · intro s uid body nid now
    unfold createProject
    split <;> rfl
  · intro s uid pid body nid now
    unfold createTask
    split
    · rfl
    · dsimp only
      split <;> rfl
  · intro s uid pid tid body now
    unfold updateTask
    split
    · rfl
    · dsimp only
      split <;> rfl
  · intro s uid pid tid
    unfold deleteTask
    split
    · rfl
    · split <;> rfl

/-- The membership-scoped project lookup succeeds exactly when some stored
project has the requested id and lists the user as a member. -/
theorem findProject_isSome_iff (s : AppState) (pid uid : String) :
    (findProject s pid uid).isSome ↔
      ∃ p ∈ s.projects, p.id = pid ∧ uid ∈ p.members := by
  unfold findProject
  rw [List.find?_isSome]
  constructor
  · rintro ⟨p, hp, hcond⟩
    rw [Bool.and_eq_true] at hcond
    refine ⟨p, hp, beq_iff_eq.1 hcond.1, ?_⟩
    simpa using hcond.2
  · rintro ⟨p, hp, h1, h2⟩
    exact ⟨p, hp, by simp [h1, h2]⟩

/-- C5: access to a specific project succeeds exactly for members: the
single-project GET returns a project iff some stored project carries the
requested id with the requester in its member list, and for a non-member —
including when no such project exists at all — every per-project route
(single-project GET, task list, task create, task update, task delete,
activities list) answers `404 "Project not found"`, never 403: the
membership filter in the lookup doubles as the existence check. -/
theorem C5_membership_is_authorization :
    ∀ s uid pid tid body nid now,
      ((∃ p, getProject s uid pid = Except.ok p) ↔
        ∃ p ∈ s.projects, p.id = pid ∧ uid ∈ p.members)
      ∧ ((¬ ∃ p ∈ s.projects, p.id = pid ∧ uid ∈ p.members) →
          getProject s uid pid = .error ⟨404, "Project not found"⟩
          ∧ listTasks s uid pid = .error ⟨404, "Project not found"⟩
          ∧ (createTask s uid pid body nid now).1 = .error ⟨404, "Project not found"⟩
          ∧ (updateTask s uid pid tid body now).1 = .error ⟨404, "Project not found"⟩
          ∧ (deleteTask s uid pid tid).1 = .error ⟨404, "Project not found"⟩
          ∧ listActivities s uid pid = .error ⟨404, "Project not found"⟩) := by
  intro s uid pid tid body nid now
  have hiff := findProject_isSome_iff s pid uid
  constructor
  · constructor
    · rintro ⟨p, hp⟩
      apply hiff.1
      unfold getProject at hp
      cases hfp : findProject s pid uid with
      | none => rw [hfp] at hp; exact Except.noConfusion hp
      | some q => simp [hfp]
    · intro hex
      obtain ⟨p, hfp⟩ := Option.isSome_iff_exists.1 (hiff.2 hex)
      exact ⟨p, by unfold getProject; rw [hfp]⟩
  · intro hnex
    have hnone : findProject s pid uid = none := by
      rw [← Option.not_isSome_iff_eq_none]
      intro hs
      exact hnex (hiff.1 hs)
    refine ⟨?_, ?_, ?_, ?_, ?_, ?_⟩
    · unfold getProject
      rw [hnone]
    · unfold listTasks
      rw [hnone]
    · unfold createTask
      rw [hnone]
    · unfold updateTask
      rw [hnone]
    · unfold deleteTask
      rw [hnone]
    · unfold listActivities
      rw [hnone]

/-- C5 witness: user `u2` is no member of project `p1`, so the per-project
routes answer 404 for `u2`. -/
theorem C5_membership_is_authorization_witness :
    getProject sampleState "u2" "p1" = .error ⟨404, "Project not found"⟩
    ∧ listTasks sampleState "u2" "p1" = .error ⟨404, "Project not found"⟩ :=
  let h := (C5_membership_is_authorization sampleState "u2" "p1" "t1"
    ⟨none, none, none⟩ "n1" "now").2 (by decide)
  ⟨h.1, h.2.1⟩

/-- C6: signing up with an email that an existing user already holds fails
with the distinct duplicate response `400 "Email already registered"`
(translated from the storage layer's duplicate-key violation, not a generic
500), and the store is returned unchanged: no second user record exists. -/
theorem C6_duplicate_email_conflict :
    ∀ s body token hashed nid now,
      jsTruthy body.email = true → jsTruthy body.name = true →
      jsTruthy body.password = true →
      (∃ u ∈ s.users, u.email = body.email.getD "") →
      signup s body token hashed nid now =
        (.error ⟨400, "Email already registered"⟩, s) := by
  intro s body token hashed nid now he hn hp hex
  obtain ⟨u, hu, hue⟩ := hex
  unfold signup
  have hc : (!jsTruthy body.email || !jsTruthy body.name || !jsTruthy body.password)
      = false := by
    simp [he, hn, hp]
  rw [hc, if_neg Bool.false_ne_true]
  dsimp only
  have hany : (s.users.any fun x => x.email == body.email.getD "") = true :=
    List.any_eq_true.2 ⟨u, hu, beq_iff_eq.2 hue⟩
  rw [if_pos hany]

/-- C6 witness: a second signup with `sampleUser`'s email fails with the
duplicate response and leaves the store untouched. -/
theorem C6_duplicate_email_conflict_witness :
    signup sampleAuthState ⟨some "a@x.com", some "Bob", some "pw2"⟩ "tok" "h2" "u2" "t2" =
      (.error ⟨400, "Email already registered"⟩, sampleAuthState) :=
  C6_duplicate_email_conflict sampleAuthState ⟨some "a@x.com", some "Bob", some "pw2"⟩
    "tok" "h2" "u2" "t2" (by decide) (by decide) (by decide)
    ⟨sampleUser, by decide, by decide⟩

/-- C7: a successful task update changes, in the stored task it matched,
exactly the request fields that are present: the task is a stored one with
the addressed id and project; absent fields keep their previous values;
present fields take the request's value; `updated_at` becomes the update
time; and the identifier and parent project identifier are unchanged.  The
pairwise distinctness of task ids is the unique index of server.js line 42. -/
theorem C7_partial_update :
    ∀ s uid pid tid body now t' s2, (s.tasks.map Task.id).Nodup →
      updateTask s uid pid tid body now = (.ok (some t'), s2) →
      ∃ t ∈ s.tasks, t.id = tid ∧ t.project_id = pid ∧
        t'.id = t.id ∧ t'.project_id = t.project_id ∧ t'.created_at = t.created_at ∧
        t'.updated_at = now ∧
        (body.title = none → t'.title = t.title) ∧
        (∀ x, body.title = some x → t'.title = x) ∧
        (body.description = none → t'.description = t.description) ∧
        (∀ x, body.description = some x → t'.description = x) ∧
        (body.status = none → t'.status = t.status) ∧
        (∀ x, body.status = some x → t'.status = x) := by
  intro s uid pid tid body now t' s2 hnd h
  obtain ⟨t, htl, hid, hpid, rfl⟩ := updateTask_ok_spec s uid pid tid body now t' s2 hnd h
  refine ⟨t, htl, hid, hpid, rfl, rfl, rfl, rfl, ?_, ?_, ?_, ?_, ?_, ?_⟩
  · intro hx
    simp [applyTaskUpdate, hx]
  · intro x hx
    simp [applyTaskUpdate, hx]
  · intro hx
    simp [applyTaskUpdate, hx]
  · intro x hx
    simp [applyTaskUpdate, hx]
  · intro hx
    simp [applyTaskUpdate, hx]
  · intro x hx
    simp [applyTaskUpdate, hx]

/-- C7 witness: a status-only update of `sampleTask1` keeps its title,
description, creation time, id and project id, and stores the new status. -/
theorem C7_partial_update_witness :
    ∃ t ∈ sampleTaskState.tasks, t.id = "t1" ∧ t.project_id = "p1" ∧
      sampleTask1Updated.id = t.id ∧ sampleTask1Updated.project_id = t.project_id ∧
      sampleTask1Updated.created_at = t.created_at ∧
      sampleTask1Updated.updated_at = "now2" ∧
      ((⟨none, none, some "done"⟩ : TaskBody).title = none →
        sampleTask1Updated.title = t.title) ∧
      (∀ x, (⟨none, none, some "done"⟩ : TaskBody).title = some x →
        sampleTask1Updated.title = x) ∧
      ((⟨none, none, some "done"⟩ : TaskBody).description = none →
        sampleTask1Updated.description = t.description) ∧
      (∀ x, (⟨none, none, some "done"⟩ : TaskBody).description = some x →
        sampleTask1Updated.description = x) ∧
      ((⟨none, none, some "done"⟩ : TaskBody).status = none →
        sampleTask1Updated.status = t.status) ∧
      (∀ x, (⟨none, none, some "done"⟩ : TaskBody).status = some x →
        sampleTask1Updated.status = x) :=
  C7_partial_update sampleTaskState "u1" "p1" "t1" ⟨none, none, some "done"⟩ "now2"
    sampleTask1Updated
    { users := [], projects := [sampleProject1], tasks := [sampleTask1Updated],
      activities := [] }
    (by decide) rfl

/-- C8: the broadcast is best-effort fan-out: which handles are attempted
does not depend on which sends fail (the empty catch swallows each failure,
so one handle's failure never prevents the attempts on the remaining
handles and members); every registered handle of every member is attempted;
and a broadcast for a project id not in the store delivers to no one. -/
theorem C8_broadcast_best_effort :
    ∀ s conns sendOk1 sendOk2 pid,
      ((broadcastToProject s conns sendOk1 pid).map Prod.fst =
        (broadcastToProject s conns sendOk2 pid).map Prod.fst)
      ∧ (∀ p, s.projects.find? (fun q => q.id == pid) = some p →
          ∀ uid ∈ p.members, ∀ ws ∈ lookupConns conns uid,
            (ws, sendOk1 ws) ∈ broadcastToProject s conns sendOk1 pid)
      ∧ (s.projects.find? (fun q => q.id == pid) = none →
          broadcastToProject s conns sendOk1 pid = []) := by
  intro s conns sendOk1 sendOk2 pid
  refine ⟨?_, ?_, ?_⟩
  · unfold broadcastToProject
    cases hfp : s.projects.find? (fun p => p.id == pid) with
    | none => rfl
    | some p => simp [List.map_map, Function.comp]
  · intro p hfp uid huid ws hws
    unfold broadcastToProject
    rw [hfp]
    exact List.mem_map_of_mem _ (List.mem_flatMap.2 ⟨uid, huid, hws⟩)
  · intro hfp
    unfold broadcastToProject
    rw [hfp]

/-- C8 witness: broadcasting on the sample store attempts member `u1`'s
handle 5, and a broadcast for the unknown project id `zzz` is empty. -/
theorem C8_broadcast_best_effort_witness :
    (5, true) ∈ broadcastToProject sampleState sampleConns (fun _ => true) "p1"
    ∧ broadcastToProject sampleState sampleConns (fun _ => true) "zzz" = [] :=
  ⟨(C8_broadcast_best_effort sampleState sampleConns (fun _ => true) (fun _ => false)
      "p1").2.1 sampleProject1 (by decide) "u1" (by decide) 5 (by decide),
   (C8_broadcast_best_effort sampleState sampleConns (fun _ => true) (fun _ => false)
      "zzz").2.2 (by decide)⟩

/-- Registering a socket appends its handle to the user's entry (creating
the entry when absent). -/
theorem lookupConns_registerConnection (conns : Conns) (uid : String) (ws : Nat) :
    lookupConns (registerConnection conns uid ws) uid = lookupConns conns uid ++ [ws] := by
  induction conns with
  | nil => simp [registerConnection, lookupConns]
  | cons e rest ih =>
    by_cases hbeq : (e.1 == uid) = true
    · have hany : ((e :: rest).any fun x => x.1 == uid) = true := by
        simp [List.any_cons, hbeq]
      unfold registerConnection
      rw [if_pos hany, List.map_cons, if_pos hbeq]
      unfold lookupConns
      rw [List.find?_cons_of_pos (p := fun x : String × List Nat => x.1 == uid)
          (a := (e.1, e.2 ++ [ws])) _ hbeq,
        List.find?_cons_of_pos (p := fun x : String × List Nat => x.1 == uid) _ hbeq]
    · have hbeq' : (e.1 == uid) = false := Bool.eq_false_iff.2 hbeq
      cases hany : (rest.any fun x => x.1 == uid) with
      | true =>
        have hanyc : ((e :: rest).any fun x => x.1 == uid) = true := by
          simp [List.any_cons, hany]
        have hreg : registerConnection rest uid ws =
            rest.map (fun x => if x.1 == uid then (x.1, x.2 ++ [ws]) else x) := by
          unfold registerConnection
          rw [if_pos hany]
        unfold registerConnection
        rw [if_pos hanyc, List.map_cons, if_neg (by simp [hbeq'])]
        unfold lookupConns
        rw [List.find?_cons_of_neg _ (by simp [hbeq']),
          List.find?_cons_of_neg _ (by simp [hbeq'])]
        have := ih
        rw [hreg] at this
        exact this
      | false =>
        have hanyc : ((e :: rest).any fun x => x.1 == uid) = false := by
          simp [List.any_cons, hany, hbeq']
        have hreg : registerConnection rest uid ws = rest ++ [(uid, [ws])] := by
          unfold registerConnection
          rw [if_neg (by simp [hany])]
        unfold registerConnection
        rw [if_neg (by simp [hanyc]), List.cons_append]
        unfold lookupConns
        rw [List.find?_cons_of_neg _ (by simp [hbeq']),
          List.find?_cons_of_neg _ (by simp [hbeq'])]
        have := ih
        rw [hreg] at this
        exact this

/-- C9: a WebSocket upgrade whose path matches `/api/ws/<uid>` registers the
socket under `<uid>` unconditionally — the upgrade handler consults no token
or credential, only the path — so the handle immediately receives every
broadcast addressed to any project that lists `<uid>` as a member: any
client can subscribe to any user's notification stream by supplying that
user's identifier in the path. -/
theorem C9_ws_subscribe_without_auth :
    ∀ path uid conns ws s pid p sendOk,
      parseWsPath path = some uid →
      handleUpgrade conns path ws = some (registerConnection conns uid ws)
      ∧ ws ∈ lookupConns (registerConnection conns uid ws) uid
      ∧ (s.projects.find? (fun q => q.id == pid) = some p → uid ∈ p.members →
          (ws, sendOk ws) ∈
            broadcastToProject s (registerConnection conns uid ws) sendOk pid) := by
  intro path uid conns ws s pid p sendOk hp
  refine ⟨?_, ?_, ?_⟩
  · unfold handleUpgrade
    rw [hp]
  · rw [lookupConns_registerConnection]
    exact List.mem_append_right _ (List.mem_singleton.2 rfl)
  · intro hfp hmem
    unfold broadcastToProject
    rw [hfp]
    refine List.mem_map_of_mem _ (List.mem_flatMap.2 ⟨uid, hmem, ?_⟩)
    rw [lookupConns_registerConnection]
    exact List.mem_append_right _ (List.mem_singleton.2 rfl)

/-- C9 witness: an unauthenticated upgrade on path `/api/ws/u1` with fresh
handle 7 subscribes to `u1`'s stream and receives the broadcast for
project `p1`, whose member list contains `u1`. -/
theorem C9_ws_subscribe_without_auth_witness :
    handleUpgrade [] "/api/ws/u1" 7 = some (registerConnection [] "u1" 7)
    ∧ 7 ∈ lookupConns (registerConnection [] "u1" 7) "u1"
    ∧ (7, true) ∈
        broadcastToProject sampleState (registerConnection [] "u1" 7) (fun _ => true) "p1" :=
  let h := C9_ws_subscribe_without_auth "/api/ws/u1" "u1" [] 7 sampleState "p1"
    sampleProject1 (fun _ => true) (by decide)
  ⟨h.1, h.2.1, h.2.2 (by decide) (by decide)⟩

/-- C10: no successful signup, login or `GET /auth/me` response carries the
stored password hash: the returned user object's keys are exactly
`id, email, name, created_at` — for signup and login because the response is
built from that four-field `userOut` literal, for `/auth/me` because the
stored document is read back under the projection `{_id: 0, password: 0}`. -/
theorem C10_no_password_in_responses :
    (∀ s body token hashed nid now resp s2,
      signup s body token hashed nid now = (.ok resp, s2) →
      resp.user.map Prod.fst = ["id", "email", "name", "created_at"]
      ∧ "password" ∉ resp.user.map Prod.fst)
    ∧ (∀ s body token pwMatch resp,
      login s body token pwMatch = .ok resp →
      resp.user.map Prod.fst = ["id", "email", "name", "created_at"]
      ∧ "password" ∉ resp.user.map Prod.fst)
    ∧ (∀ s uidq fields,
      authMe s uidq = .ok fields →
      fields.map Prod.fst = ["id", "email", "name", "created_at"]
      ∧ "password" ∉ fields.map Prod.fst) := by
  refine ⟨?_, ?_, ?_⟩
  · intro s body token hashed nid now resp s2 h
    unfold signup at h
    split at h
    · simp at h
    · dsimp only at h
      split at h
      · simp at h
      · simp only [Prod.mk.injEq, Except.ok.injEq] at h
        have hkeys : resp.user.map Prod.fst = ["id", "email", "name", "created_at"] := by
          rw [← h.1]
          rfl
        exact ⟨hkeys, by rw [hkeys]; decide⟩
  · intro s body token pwMatch resp h
    unfold login at h
    split at h
    · exact Except.noConfusion h
    · cases hfind : s.users.find? (fun u => u.email == body.email.getD "") with
      | none => rw [hfind] at h; exact Except.noConfusion h
      | some u =>
        rw [hfind] at h
        dsimp only at h
        split at h
        · exact Except.noConfusion h
        · simp only [Except.ok.injEq] at h
          have hkeys : resp.user.map Prod.fst = ["id", "email", "name", "created_at"] := by
            rw [← h]
            rfl
          exact ⟨hkeys, by rw [hkeys]; decide⟩
  · intro s uidq fields h
    unfold authMe at h
    cases hfind : s.users.find? (fun u => u.id == uidq) with
    | none => rw [hfind] at h; exact Except.noConfusion h
    | some u =>
      rw [hfind] at h
      simp only [Except.ok.injEq] at h
      have hkeys : fields.map Prod.fst = ["id", "email", "name", "created_at"] := by
        rw [← h]
        rfl
      exact ⟨hkeys, by rw [hkeys]; decide⟩

/-- C10 witness: concrete successful signup, login and `/auth/me` responses
whose user objects carry no `password` key. -/
theorem C10_no_password_in_responses_witness :
    "password" ∉ (([("id", "u9"), ("email", "b@x.com"), ("name", "Bob"),
        ("created_at", "t")] : List (String × String)).map Prod.fst)
    ∧ "password" ∉ ((userOut sampleUser).map Prod.fst)
    ∧ "password" ∉ ((projectionExclude ["_id", "password"]
        (userDocFields sampleUser)).map Prod.fst) :=
  ⟨(C10_no_password_in_responses.1 emptyState ⟨some "b@x.com", some "Bob", some "pw"⟩
      "tok" "h" "u9" "t"
      { access_token := "tok", token_type := "bearer",
        user := [("id", "u9"), ("email", "b@x.com"), ("name", "Bob"), ("created_at", "t")] }
      { users := [{ id := "u9", email := "b@x.com", name := "Bob", password := "h",
                    created_at := "t" }],
        projects := [], tasks := [], activities := [] }
      rfl).2,
   (C10_no_password_in_responses.2.1 sampleAuthState ⟨some "a@x.com", some "pw"⟩
      "tok" (fun _ _ => true)
      { access_token := "tok", token_type := "bearer", user := userOut sampleUser }
      rfl).2,
   (C10_no_password_in_responses.2.2 sampleAuthState "u1"
      (projectionExclude ["_id", "password"] (userDocFields sampleUser)) rfl).2⟩

end TaskTool
